import Mathlib

/-!
Verification of the bpp browser-extension publishing action.

Shallow embedding of `packages/bpp/src/main.ts`, `packages/bpp/src/utils.ts` and
`packages/bpp/src/vendor/bms/chrome.ts`.  JavaScript string-or-undefined fields
are modelled as `Option String` (with `none` for `undefined`); JS truthiness of
a string is "non-empty"; the filesystem and the version-descriptor contents are
passed as explicit function parameters.
-/

namespace Bpp

/-- JS `a || b` over strings: `b` when `a` is empty (falsy), `a` otherwise. -/
def jsOr (a b : String) : String := if a = "" then b else a

/-- JS truthiness of a string-or-undefined value: `undefined` and `""` are falsy. -/
def truthy : Option String → Bool
  | none => false
  | some s => s ≠ ""

/-- JS `a || b` over string-or-undefined values, keeping the raw value. -/
def jsOrOpt (a b : Option String) : Option String := if truthy a then a else b

/-- The store options shared by every market (`CommonOptions` in
`vendor/bms/chrome.ts`); string fields are `Option String`, `none` for an
absent field. -/
structure CommonOptions where
  zip : Option String := none
  file : Option String := none
  versionFile : Option String := none
  verbose : Bool := false
  dryRun : Bool := false
  notes : Option String := none
deriving Repr, DecidableEq

/-- `padEnd` used by `tag` in main.ts; length is counted in characters. -/
def padEnd (s : String) (n : Nat) : String :=
  s ++ String.mk (List.replicate (n - s.length) ' ')

/-- `tag` from main.ts: the padded log-line marker. -/
def tag (pfx : String) : String := padEnd pfx 9 ++ " |"

/-- `getBundleFiles` from main.ts: `opt.zip || opt.file`. -/
def getBundleFiles (o : CommonOptions) : Option String := jsOrOpt o.zip o.file

/-- `hasBundleFile` from main.ts: `!!getBundleFiles(opt)`. -/
def hasBundleFile (o : CommonOptions) : Bool := truthy (getBundleFiles o)

/-- The bundle-source resolution of one dispatcher-loop iteration
(main.ts lines 80-93): store-specific `<browser>-file` input, else the store's
own `zip`/`file` field, else the global artifact; when none is present only the
skip warning (returned as `some _`) is emitted. -/
def resolveBundleSource (browser fromInput : String) (o : CommonOptions)
    (artifact : String) : CommonOptions × Option String :=
  if fromInput ≠ "" then ({ o with zip := some fromInput }, none)
  else if hasBundleFile o then ({ o with zip := getBundleFiles o }, none)
  else if artifact ≠ "" then ({ o with zip := some artifact }, none)
  else (o, some (tag "🟡 SKIP" ++ " No artifact available to submit for " ++ browser))

/-- The global overrides of one dispatcher-loop iteration (main.ts lines
95-102): the verbose flag and the version-file path, applied when set. -/
def applyGlobalOverrides (o : CommonOptions) (verbose : Bool)
    (versionFile : String) : CommonOptions :=
  let o1 := if verbose then { o with verbose := true } else o
  if versionFile ≠ "" then { o1 with versionFile := some versionFile } else o1

/-- One full iteration of the dispatcher resolution loop (main.ts lines
80-103) for a single store. -/
def resolveStore (browser fromInput : String) (o : CommonOptions)
    (artifact : String) (verbose : Bool) (versionFile : String) :
    CommonOptions × Option String :=
  let step := resolveBundleSource browser fromInput o artifact
  (applyGlobalOverrides step.1 verbose versionFile, step.2)

theorem applyGlobalOverrides_zip (o : CommonOptions) (v : Bool) (vf : String) :
    (applyGlobalOverrides o v vf).zip = o.zip := by
  unfold applyGlobalOverrides
  split <;> split <;> rfl

theorem applyGlobalOverrides_file (o : CommonOptions) (v : Bool) (vf : String) :
    (applyGlobalOverrides o v vf).file = o.file := by
  unfold applyGlobalOverrides
  split <;> split <;> rfl

theorem hasBundleFile_applyGlobalOverrides (o : CommonOptions) (v : Bool)
    (vf : String) : hasBundleFile (applyGlobalOverrides o v vf) = hasBundleFile o := by
  unfold hasBundleFile getBundleFiles
  rw [applyGlobalOverrides_zip, applyGlobalOverrides_file]

/-- C1: for every candidate store the dispatcher resolves the bundle source by
the fixed priority chain: the store-specific `<browser>-file` input wins if
present, otherwise the store's own `zip`/`file` field, otherwise the global
artifact path; when none of the three is present the store is left without a
bundle and only a skip warning is emitted (the resolution step never fails). -/
theorem dispatcher_priority_chain (browser fromInput : String) (o : CommonOptions)
    (artifact : String) (verbose : Bool) (versionFile : String) :
    (fromInput ≠ "" →
      (resolveStore browser fromInput o artifact verbose versionFile).1.zip = some fromInput ∧
      (resolveStore browser fromInput o artifact verbose versionFile).2 = none) ∧
    (fromInput = "" → hasBundleFile o = true →
      (resolveStore browser fromInput o artifact verbose versionFile).1.zip = getBundleFiles o ∧
      (resolveStore browser fromInput o artifact verbose versionFile).2 = none) ∧
    (fromInput = "" → hasBundleFile o = false → artifact ≠ "" →
      (resolveStore browser fromInput o artifact verbose versionFile).1.zip = some artifact ∧
      (resolveStore browser fromInput o artifact verbose versionFile).2 = none) ∧
    (fromInput = "" → hasBundleFile o = false → artifact = "" →
      hasBundleFile (resolveStore browser fromInput o artifact verbose versionFile).1 = false ∧
      (resolveStore browser fromInput o artifact verbose versionFile).2 =
        some (tag "🟡 SKIP" ++ " No artifact available to submit for " ++ browser)) := by
  unfold resolveStore
  refine ⟨?_, ?_, ?_, ?_⟩
  · intro h1
    rw [applyGlobalOverrides_zip]
    simp [resolveBundleSource, h1]
  · intro h1 h2
    rw [applyGlobalOverrides_zip]
    simp [resolveBundleSource, h1, h2]
  · intro h1 h2 h3
    rw [applyGlobalOverrides_zip]
    simp [resolveBundleSource, h1, h2, h3]
  · intro h1 h2 h3
    rw [hasBundleFile_applyGlobalOverrides]
    simp [resolveBundleSource, h1, h2, h3]

/-- Witness for C1 at concrete inputs exercising all four branches. -/
theorem dispatcher_priority_chain_cases :
    ((resolveStore "chrome" "in.zip" { zip := some "own.zip" } "art.zip" false "").1.zip
        = some "in.zip") ∧
    ((resolveStore "chrome" "" { zip := some "own.zip" } "art.zip" false "").1.zip
        = some "own.zip") ∧
    ((resolveStore "chrome" "" {} "art.zip" false "").1.zip = some "art.zip") ∧
    (hasBundleFile (resolveStore "chrome" "" {} "" false "").1 = false ∧
      (resolveStore "chrome" "" {} "" false "").2 =
        some (tag "🟡 SKIP" ++ " No artifact available to submit for " ++ "chrome")) := by
  refine ⟨?_, ?_, ?_, ?_⟩
  · exact ((dispatcher_priority_chain "chrome" "in.zip" { zip := some "own.zip" }
      "art.zip" false "").1 (by decide)).1
  · exact (((dispatcher_priority_chain "chrome" "" { zip := some "own.zip" }
      "art.zip" false "").2.1 rfl (by decide)).1).trans (by decide)
  · exact ((dispatcher_priority_chain "chrome" "" {} "art.zip" false "").2.2.1
      rfl (by decide) (by decide)).1
  · exact (dispatcher_priority_chain "chrome" "" {} "" false "").2.2.2
      rfl (by decide) rfl

/-- A rejection reason as inspected by `getDetailedErrorMessage` in main.ts: an
error object carrying a `request` key (its detail object is serialized), a
standard `Error` (stack or message), or any other thrown value (serialized
wholesale). -/
inductive ErrVal where
  | requestErr (details : String)
  | stdErr (stack : String) (message : String)
  | rawErr (serialized : String)
deriving Repr, DecidableEq

/-- `getDetailedErrorMessage` from main.ts over the modelled error values. -/
def getDetailedErrorMessage : ErrVal → String
  | .requestErr d => d
  | .stdErr stack msg => jsOr stack msg
  | .rawErr s => s

/-- One settled result of `Promise.allSettled` over the deploy promises:
either a rejection with its reason, or fulfilment with the submit routine's
boolean (`false` also stands for the skip value of a store with no bundle). -/
inductive Settled where
  | rejected (reason : ErrVal)
  | fulfilled (value : Bool)
deriving Repr, DecidableEq

def Settled.isRejected : Settled → Bool
  | .rejected _ => true
  | .fulfilled _ => false

/-- A line recorded by the result loop: `setFailed` with the detailed error,
or the `🟢 DONE` info line naming the browser. -/
inductive ReportLine where
  | failure (detail : String)
  | done (browser : String)
deriving Repr, DecidableEq

def ReportLine.isFailure : ReportLine → Bool
  | .failure _ => true
  | .done _ => false

/-- The `results.forEach` of main.ts lines 141-149, over the browser entries
paired with their settled results: a rejected result records a failure line, a
fulfilled truthy result records the success line, a fulfilled falsy (skip)
result records nothing; iteration never halts early. -/
def reportResults : List (String × Settled) → List ReportLine
  | [] => []
  | (b, r) :: rest =>
    (match r with
      | .rejected e =>
          [ReportLine.failure (tag "🔴 ERROR" ++ " " ++ getDetailedErrorMessage e)]
      | .fulfilled true => [ReportLine.done b]
      | .fulfilled false => []) ++ reportResults rest

/-- `setFailed` marks the whole run failed; it is invoked exactly when some
failure line is recorded. -/
def runMarkedFailed (rs : List (String × Settled)) : Bool :=
  (reportResults rs).any ReportLine.isFailure

theorem runMarkedFailed_eq_any (rs : List (String × Settled)) :
    runMarkedFailed rs = rs.any (fun p => p.2.isRejected) := by
  induction rs with
  | nil => rfl
  | cons hd tl ih =>
    obtain ⟨b, r⟩ := hd
    cases r with
    | rejected e =>
        simp [runMarkedFailed, reportResults, ReportLine.isFailure, Settled.isRejected]
    | fulfilled v =>
        cases v <;>
          simpa [runMarkedFailed, reportResults, ReportLine.isFailure,
            Settled.isRejected] using ih

/-- C2: the aggregator waits for every submission to settle (`reportResults`
consumes one settled outcome per candidate store) and processes all of them:
the run is marked failed iff at least one submission rejected, and every
fulfilled-true submission still gets its success line recorded no matter which
other entries rejected; a fulfilled-false (skip) entry records nothing. -/
theorem aggregator_all_settle (rs : List (String × Settled)) :
    (runMarkedFailed rs = true ↔ ∃ p ∈ rs, p.2.isRejected = true) ∧
    (∀ p ∈ rs, p.2 = Settled.fulfilled true →
      ReportLine.done p.1 ∈ reportResults rs) := by
  constructor
  · rw [runMarkedFailed_eq_any, List.any_eq_true]
  · intro p hp hval
    induction rs with
    | nil => simp at hp
    | cons hd tl ih =>
      obtain ⟨b, r⟩ := hd
      rcases List.mem_cons.mp hp with heq | htl
      · subst heq
        simp only at hval
        subst hval
        simp [reportResults]
      · have := ih htl
        cases r with
        | rejected e => simpa [reportResults] using this
        | fulfilled v => cases v <;> simp [reportResults, this]

/-- Witness for C2: three stores where only the second rejects; the first
still records success, the third (skip) records nothing, the run is failed. -/
theorem aggregator_all_settle_example :
    runMarkedFailed
      [("chrome", Settled.fulfilled true),
       ("firefox", Settled.rejected (ErrVal.stdErr "" "boom")),
       ("edge", Settled.fulfilled false)] = true ∧
    ReportLine.done "chrome" ∈ reportResults
      [("chrome", Settled.fulfilled true),
       ("firefox", Settled.rejected (ErrVal.stdErr "" "boom")),
       ("edge", Settled.fulfilled false)] := by
  refine ⟨?_, ?_⟩
  · exact (aggregator_all_settle _).1.mpr
      ⟨("firefox", Settled.rejected (ErrVal.stdErr "" "boom")), by simp, rfl⟩
  · exact (aggregator_all_settle _).2 ("chrome", Settled.fulfilled true) (by simp) rfl

/-- What happens after the resolution loop of main.ts (lines 105-137): the
`hasAtLeastOneZip` guard throws `"No artifact found for deployment"` when no
candidate store has a bundle file, and only otherwise is the deploy list built,
invoking the external submit routine exactly for the stores with a bundle
(the others map to the skip value). -/
inductive Dispatch where
  | submitCall (browser : String)
  | skip
deriving Repr, DecidableEq

def dispatchSubmissions (entries : List String) (keys : String → CommonOptions) :
    Except String (List Dispatch) :=
  if entries.any (fun b => hasBundleFile (keys b)) then
    .ok (entries.map (fun b =>
      if hasBundleFile (keys b) then Dispatch.submitCall b else Dispatch.skip))
  else .error "No artifact found for deployment"

/-- C3: when after resolution no candidate store has a non-empty bundle path,
the run fails with the "No artifact found for deployment" error and no submit
list is ever produced, so no store's external submit routine is invoked. -/
theorem no_artifact_fails_before_submit (entries : List String)
    (keys : String → CommonOptions)
    (h : ∀ b ∈ entries, hasBundleFile (keys b) = false) :
    dispatchSubmissions entries keys = .error "No artifact found for deployment" ∧
    ∀ l, dispatchSubmissions entries keys ≠ .ok l := by
  have hany : entries.any (fun b => hasBundleFile (keys b)) = false := by
    rw [List.any_eq_false]
    intro b hb
    simp [h b hb]
  refine ⟨?_, ?_⟩
  · simp [dispatchSubmissions, hany]
  · intro l
    simp [dispatchSubmissions, hany]

/-- Witness for C3: one candidate store with empty options. -/
theorem no_artifact_fails_before_submit_example :
    dispatchSubmissions ["chrome"] (fun _ => {}) =
      .error "No artifact found for deployment" :=
  (no_artifact_fails_before_submit ["chrome"] (fun _ => {}) (fun _ _ => rfl)).1

/-- The fixed set of store identities (`BrowserName` in vendor/bms/chrome.ts). -/
inductive BrowserName where
  | chrome | firefox | opera | edge | itero
deriving Repr, DecidableEq

/-- The release-notes step of main.ts lines 111-113: when the parsed keys
contain the edge store and the global notes input is set, the edge options'
`notes` field is overwritten; nothing else changes. -/
def applyEdgeNotes (keys : BrowserName → Option CommonOptions) (edgeNotes : String) :
    BrowserName → Option CommonOptions :=
  match keys BrowserName.edge with
  | some o =>
    if edgeNotes ≠ "" then
      fun b =>
        if b = BrowserName.edge then some { o with notes := some edgeNotes }
        else keys b
    else keys
  | none => keys

/-- C6: the release-notes input, when set, is written only to the `notes`
field of the edge store and only when edge is present in the keys collection;
every other store's options, and everything when edge is absent or the input
is unset, are left unchanged. -/
theorem edge_notes_frame (keys : BrowserName → Option CommonOptions)
    (edgeNotes : String) :
    (∀ b, b ≠ BrowserName.edge → applyEdgeNotes keys edgeNotes b = keys b) ∧
    (∀ o, keys BrowserName.edge = some o → edgeNotes ≠ "" →
      applyEdgeNotes keys edgeNotes BrowserName.edge =
        some { o with notes := some edgeNotes }) ∧
    (keys BrowserName.edge = none → applyEdgeNotes keys edgeNotes = keys) ∧
    (edgeNotes = "" → applyEdgeNotes keys edgeNotes = keys) := by
  refine ⟨?_, ?_, ?_, ?_⟩
  · intro b hb
    unfold applyEdgeNotes
    cases h : keys BrowserName.edge with
    | none => rfl
    | some o =>
      by_cases he : edgeNotes = ""
      · simp [he]
      · simp [he, hb]
  · intro o ho hne
    unfold applyEdgeNotes
    rw [ho]
    simp [hne]
  · intro ho
    unfold applyEdgeNotes
    rw [ho]
  · intro he
    unfold applyEdgeNotes
    cases h : keys BrowserName.edge with
    | none => rfl
    | some o => simp [he]

/-- Witness for C6: edge present, chrome options untouched, edge notes set. -/
theorem edge_notes_frame_example :
    (applyEdgeNotes
        (fun b => if b = BrowserName.edge then some {} else some { zip := some "a.zip" })
        "hello" BrowserName.chrome = some { zip := some "a.zip" }) ∧
    (applyEdgeNotes
        (fun b => if b = BrowserName.edge then some {} else some { zip := some "a.zip" })
        "hello" BrowserName.edge = some { notes := some "hello" }) := by
  constructor
  · exact ((edge_notes_frame _ "hello").1 BrowserName.chrome (by decide)).trans (by simp)
  · exact (edge_notes_frame _ "hello").2.1 {} (by simp) (by decide)

/-- `getErrorMessage` from vendor/bms/chrome.ts. -/
def getErrorMessage (market message : String) : String := market ++ ": " ++ message

/-- The filesystem, abstracted: `fullPath` models `resolve(cwd(), file)` and
`existsF` models `existsSync` on full paths. -/
def getIsFileExists (existsF : String → Bool) (fullPath : String → String)
    (file : String) : Bool := existsF (fullPath file)

/-- The options record as inspected by `validateOptions`: dynamic credential
lookups `options[key]` are modelled by `fields`, giving the truthiness of the
value stored under each required key. -/
structure VOptions where
  zip : Option String := none
  file : Option String := none
  fields : String → Bool

/-- The required-fields pass of `validateOptions` (chrome.ts lines 71-76):
iterate the errorMap entries in key order and throw on the first whose option
value is falsy. -/
def validateRequired (market : String) (o : VOptions) :
    List (String × String) → Except String Unit
  | [] => .ok ()
  | (key, reason) :: rest =>
    if o.fields key then validateRequired market o rest
    else .error (getErrorMessage market reason)

/-- `validateOptions` from vendor/bms/chrome.ts: required fields first, then
the bundle-presence check, then the file-existence check. -/
def validateOptions (market : String) (o : VOptions)
    (errorMap : List (String × String)) (existsF : String → Bool)
    (fullPath : String → String) : Except String Unit :=
  match validateRequired market o errorMap with
  | .error e => .error e
  | .ok _ =>
    if !truthy o.zip && !truthy o.file then
      .error (getErrorMessage market "No extension bundle provided")
    else
      let filePath := (jsOrOpt o.zip o.file).getD ""
      if getIsFileExists existsF fullPath filePath then .ok ()
      else
        .error (getErrorMessage market
          ("Extension bundle file doesn't exist: " ++ fullPath filePath))

theorem validateRequired_eq_find (market : String) (o : VOptions)
    (em : List (String × String)) :
    validateRequired market o em =
      match em.find? (fun kv => !o.fields kv.1) with
      | some kv => .error (getErrorMessage market kv.2)
      | none => .ok () := by
  induction em with
  | nil => rfl
  | cons hd tl ih =>
    obtain ⟨key, reason⟩ := hd
    by_cases h : o.fields key = true
    · simpa [validateRequired, List.find?, h] using ih
    · simp only [Bool.not_eq_true] at h
      simp [validateRequired, List.find?, h]

/-- C4: the precondition validator throws on the first required field that is
not truthy, with the store name and that field's configured reason, and never
aggregates errors; only when every required field is present does it check for
a bundle path, throwing the store-qualified "No extension bundle provided"
error when neither `zip` nor `file` is set; only after both checks does it
test file existence. -/
theorem validator_order (market : String) (o : VOptions)
    (em : List (String × String)) (existsF : String → Bool)
    (fullPath : String → String) :
    (∀ key reason, em.find? (fun kv => !o.fields kv.1) = some (key, reason) →
      validateOptions market o em existsF fullPath =
        .error (market ++ ": " ++ reason)) ∧
    ((∀ kv ∈ em, o.fields kv.1 = true) → truthy o.zip = false → truthy o.file = false →
      validateOptions market o em existsF fullPath =
        .error (getErrorMessage market "No extension bundle provided")) ∧
    ((∀ kv ∈ em, o.fields kv.1 = true) → (truthy o.zip = true ∨ truthy o.file = true) →
      validateOptions market o em existsF fullPath =
        (if getIsFileExists existsF fullPath ((jsOrOpt o.zip o.file).getD "") then
          .ok ()
        else
          .error (getErrorMessage market
            ("Extension bundle file doesn't exist: " ++
              fullPath ((jsOrOpt o.zip o.file).getD ""))))) := by
  have hnone : (∀ kv ∈ em, o.fields kv.1 = true) →
      em.find? (fun kv => !o.fields kv.1) = none := by
    intro hall
    rw [List.find?_eq_none]
    intro kv hkv
    simp [hall kv hkv]
  refine ⟨?_, ?_, ?_⟩
  · intro key reason hfind
    unfold validateOptions
    rw [validateRequired_eq_find, hfind]
    rfl
  · intro hall hz hf
    unfold validateOptions
    rw [validateRequired_eq_find, hnone hall]
    simp [hz, hf]
  · intro hall hzf
    unfold validateOptions
    rw [validateRequired_eq_find, hnone hall]
    rcases hzf with h | h <;> simp [h]

/-- Witness for C4: the first missing required field (of two missing) is the
one reported; with all fields present and no bundle, the bundle error fires. -/
theorem validator_order_example :
    (validateOptions "chrome"
        { fields := fun _ => false }
        [("clientId", "client id is required"), ("extId", "ext id is required")]
        (fun _ => true) id =
      .error "chrome: client id is required") ∧
    (validateOptions "chrome"
        { fields := fun _ => true }
        [("clientId", "client id is required")]
        (fun _ => true) id =
      .error "chrome: No extension bundle provided") ∧
    (validateOptions "chrome"
        { zip := some "a.zip", fields := fun _ => true }
        [("clientId", "client id is required")]
        (fun _ => false) id =
      .error "chrome: Extension bundle file doesn't exist: a.zip") := by
  refine ⟨?_, ?_, ?_⟩
  · exact (validator_order "chrome" { fields := fun _ => false }
      [("clientId", "client id is required"), ("extId", "ext id is required")]
      (fun _ => true) id).1 "clientId" "client id is required" rfl
  · exact (validator_order "chrome" { fields := fun _ => true }
      [("clientId", "client id is required")]
      (fun _ => true) id).2.1 (fun _ _ => rfl) rfl rfl
  · exact ((validator_order "chrome" { zip := some "a.zip", fields := fun _ => true }
      [("clientId", "client id is required")]
      (fun _ => false) id).2.2 (fun _ _ => rfl) (Or.inl (by decide))).trans rfl

/-- When `pat` is a prefix of `l`, returns the remainder of `l` after it. -/
def dropPat (pat l : List Char) : Option (List Char) :=
  match pat, l with
  | [], l => some l
  | _ :: _, [] => none
  | p :: ps, c :: cs => if p = c then dropPat ps cs else none

/-- Splits a character list at the leftmost occurrence of `pat`: the part
before the match and the part after it, `none` when `pat` does not occur. -/
def findSplit (pat : List Char) : List Char → Option (List Char × List Char)
  | [] => (dropPat pat []).map (fun rest => (([] : List Char), rest))
  | c :: cs =>
    match dropPat pat (c :: cs) with
    | some rest => some (([] : List Char), rest)
    | none => (findSplit pat cs).map (fun pr => (c :: pr.1, pr.2))

/-- Substring test matching JS `String.includes`. -/
def includesSub (s pat : String) : Bool := (findSplit pat.data s.data).isSome

/-- JS `String.replace` with a string pattern: replaces the first (leftmost)
occurrence only, leaving the rest intact. -/
def replaceFirst (s pat repl : String) : String :=
  match findSplit pat.data s.data with
  | some (pre, post) => String.mk (pre ++ repl.data ++ post)
  | none => s

/-- `getCorrectZip` from vendor/bms/chrome.ts.  `readVersion` models reading
and JSON-parsing the version file and extracting its `version` field (`none`
when the field is absent, so `packageJson.version || ""` becomes `getD ""`);
the destructuring defaults `zip = ""`, `file = ""`,
`versionFile = "package.json"` are the `getD` defaults. -/
def getCorrectZip (existsF : String → Bool) (fullPath : String → String)
    (readVersion : String → Option String) (o : CommonOptions) : String :=
  let zip := o.zip.getD ""
  let file := o.file.getD ""
  let versionFile := o.versionFile.getD "package.json"
  let output := jsOr zip file
  if getIsFileExists existsF fullPath versionFile && includesSub output "{version}" then
    replaceFirst output "{version}" ((readVersion versionFile).getD "")
  else output

theorem getCorrectZip_of_not_includes (existsF : String → Bool)
    (fullPath : String → String) (readVersion : String → Option String)
    (o : CommonOptions)
    (h : includesSub (jsOr (o.zip.getD "") (o.file.getD "")) "{version}" = false) :
    getCorrectZip existsF fullPath readVersion o =
      jsOr (o.zip.getD "") (o.file.getD "") := by
  unfold getCorrectZip
  simp [h]

/-- C5: the resolver substitutes the first `{version}` occurrence with the
descriptor's `version` field (empty string when absent) exactly when the path
contains the placeholder and the descriptor file exists, and otherwise returns
the bundle path `zip || file` unchanged. -/
theorem resolver_placeholder (existsF : String → Bool) (fullPath : String → String)
    (readVersion : String → Option String) (o : CommonOptions) :
    (getIsFileExists existsF fullPath (o.versionFile.getD "package.json") = true →
      includesSub (jsOr (o.zip.getD "") (o.file.getD "")) "{version}" = true →
      getCorrectZip existsF fullPath readVersion o =
        replaceFirst (jsOr (o.zip.getD "") (o.file.getD "")) "{version}"
          ((readVersion (o.versionFile.getD "package.json")).getD "")) ∧
    (getIsFileExists existsF fullPath (o.versionFile.getD "package.json") = false ∨
        includesSub (jsOr (o.zip.getD "") (o.file.getD "")) "{version}" = false →
      getCorrectZip existsF fullPath readVersion o =
        jsOr (o.zip.getD "") (o.file.getD "")) := by
  constructor
  · intro h1 h2
    unfold getCorrectZip
    simp [h1, h2]
  · intro h
    rcases h with h | h
    · unfold getCorrectZip
      simp [h]
    · exact getCorrectZip_of_not_includes existsF fullPath readVersion o h

/-- Witness for C5: `ext-v{version}.zip` with version `1.2.3` resolves to
`ext-v1.2.3.zip`; with the descriptor missing the placeholder stays intact. -/
theorem resolver_placeholder_example :
    (getCorrectZip (fun _ => true) id (fun _ => some "1.2.3")
        { zip := some "ext-v{version}.zip" } = "ext-v1.2.3.zip") ∧
    (getCorrectZip (fun _ => false) id (fun _ => some "1.2.3")
        { zip := some "ext-v{version}.zip" } = "ext-v{version}.zip") := by
  constructor
  · exact ((resolver_placeholder (fun _ => true) id (fun _ => some "1.2.3")
      { zip := some "ext-v{version}.zip" }).1 rfl (by decide)).trans (by decide)
  · exact ((resolver_placeholder (fun _ => false) id (fun _ => some "1.2.3")
      { zip := some "ext-v{version}.zip" }).2 (Or.inl rfl)).trans rfl

/-- The resolution step at the start of `submitChrome`
(`options.zip = getCorrectZip(options)`). -/
def resolveZipStep (existsF : String → Bool) (fullPath : String → String)
    (readVersion : String → Option String) (o : CommonOptions) : CommonOptions :=
  { o with zip := some (getCorrectZip existsF fullPath readVersion o) }

theorem jsOr_idem (a b : String) : jsOr (jsOr a b) b = jsOr a b := by
  unfold jsOr
  split
  · split <;> simp_all
  · simp_all

/-- C9: with no `{version}` placeholder in the bundle path the resolver is a
no-op — it returns `zip || file` unchanged — and the `submitChrome` resolution
step is idempotent: a second resolution yields the identical path and the
identical options, so the no-op resolution causes no state change. -/
theorem resolver_idempotent (existsF : String → Bool) (fullPath : String → String)
    (readVersion : String → Option String) (o : CommonOptions)
    (h : includesSub (jsOr (o.zip.getD "") (o.file.getD "")) "{version}" = false) :
    getCorrectZip existsF fullPath readVersion o =
      jsOr (o.zip.getD "") (o.file.getD "") ∧
    getCorrectZip existsF fullPath readVersion
        (resolveZipStep existsF fullPath readVersion o) =
      getCorrectZip existsF fullPath readVersion o ∧
    resolveZipStep existsF fullPath readVersion
        (resolveZipStep existsF fullPath readVersion o) =
      resolveZipStep existsF fullPath readVersion o := by
  have h1 : getCorrectZip existsF fullPath readVersion o =
      jsOr (o.zip.getD "") (o.file.getD "") :=
    getCorrectZip_of_not_includes existsF fullPath readVersion o h
  have hzip : (resolveZipStep existsF fullPath readVersion o).zip.getD "" =
      jsOr (o.zip.getD "") (o.file.getD "") := by
    rw [resolveZipStep]
    simpa using h1
  have hout : jsOr ((resolveZipStep existsF fullPath readVersion o).zip.getD "")
      ((resolveZipStep existsF fullPath readVersion o).file.getD "") =
      jsOr (o.zip.getD "") (o.file.getD "") := by
    rw [hzip]
    show jsOr (jsOr (o.zip.getD "") (o.file.getD "")) ((resolveZipStep existsF fullPath readVersion o).file.getD "") = _
    rw [resolveZipStep]
    exact jsOr_idem _ _
  have h2 : getCorrectZip existsF fullPath readVersion
      (resolveZipStep existsF fullPath readVersion o) =
      getCorrectZip existsF fullPath readVersion o := by
    have hinc : includesSub (jsOr ((resolveZipStep existsF fullPath readVersion o).zip.getD "")
        ((resolveZipStep existsF fullPath readVersion o).file.getD "")) "{version}" = false := by
      rw [hout]; exact h
    have := getCorrectZip_of_not_includes existsF fullPath readVersion
      (resolveZipStep existsF fullPath readVersion o) hinc
    rw [this, hout, h1]
  refine ⟨h1, h2, ?_⟩
  show ({ resolveZipStep existsF fullPath readVersion o with
    zip := some (getCorrectZip existsF fullPath readVersion
      (resolveZipStep existsF fullPath readVersion o)) } : CommonOptions) = _
  rw [h2]
  rfl

/-- Witness for C9: a placeholder-free path resolves to itself twice over. -/
theorem resolver_idempotent_example :
    getCorrectZip (fun _ => true) id (fun _ => some "1.2.3")
        { zip := some "ext.zip" } = "ext.zip" ∧
    resolveZipStep (fun _ => true) id (fun _ => some "1.2.3")
        (resolveZipStep (fun _ => true) id (fun _ => some "1.2.3")
          { zip := some "ext.zip" }) =
      resolveZipStep (fun _ => true) id (fun _ => some "1.2.3")
        { zip := some "ext.zip" } := by
  have h := resolver_idempotent (fun _ => true) id (fun _ => some "1.2.3")
    { zip := some "ext.zip" } (by decide)
  exact ⟨h.1.trans rfl, h.2.2⟩

/-- The per-market step counters (`verboseStepMap` in vendor/bms/chrome.ts);
markets absent from the record read as 0 via `?? 0`. -/
def StepMap := String → Nat

/-- `getVerboseMessage` from vendor/bms/chrome.ts: increments the market's
counter, builds `<market>: Step <n>) <message>`, prepends the severity word
(defaulting to `"Info"`) unless it is `"Error"`, then trims: fully for
`"Info"`, start-only for `"Error"`.  Returns the updated counters with the
message.  `pfx` is the source's `prefix` parameter, `""` by default. -/
def getVerboseMessage (steps : StepMap) (message pfx market : String) :
    StepMap × String :=
  let n := 1 + steps market
  let steps' : StepMap := fun m => if m = market then n else steps m
  let core := market ++ ": Step " ++ toString n ++ ") " ++ message
  let pfx1 := if pfx ≠ "Error" then jsOr pfx "Info" else pfx
  let msg1 := if pfx ≠ "Error" then pfx1 ++ " " ++ core else core
  let msg2 :=
    if pfx1 = "Info" then msg1.trim
    else if pfx1 = "Error" then msg1.trimLeft
    else msg1
  (steps', msg2)

/-- The per-market verbose flags (`verboseLogMap`) together with the step
counters: the process-lifetime state of the diagnostics logger. -/
structure VerboseState where
  steps : StepMap
  enabled : String → Bool

/-- The closure returned by `getVerboseLogger`: thanks to the short-circuit
`&&`, it calls `getVerboseMessage` and `console.log` only while the market's
verbose flag is set; the emitted line is returned as `some _`. -/
def vLog (st : VerboseState) (market message : String) :
    VerboseState × Option String :=
  if st.enabled market then
    let r := getVerboseMessage st.steps message "" market
    ({ st with steps := r.1 }, some r.2)
  else (st, none)

/-- C7: while a store's verbose flag is disabled, logging through the verbose
logger is a no-op for every message: the state (in particular the store's step
counter) is unchanged and nothing is emitted. -/
theorem disabled_logger_noop (st : VerboseState) (market message : String)
    (h : st.enabled market = false) :
    vLog st market message = (st, none) ∧
    (vLog st market message).1.steps market = st.steps market := by
  unfold vLog
  simp [h]

/-- Witness for C7: a disabled store logs nothing and keeps its counter. -/
theorem disabled_logger_noop_example :
    vLog { steps := fun _ => 0, enabled := fun _ => false } "chrome" "hello" =
      ({ steps := fun _ => 0, enabled := fun _ => false }, none) :=
  (disabled_logger_noop { steps := fun _ => 0, enabled := fun _ => false }
    "chrome" "hello" rfl).1

/-- C8: every emitted message increments the store's counter first and carries
the incremented value: a normal message (default severity) is
`Info <market>: Step <n>) <message>` trimmed, and a failure message drops the
severity word in front of the store name, `<market>: Step <n>) <message>`
trimmed at the start only. -/
theorem verbose_message_format (steps : StepMap) (message market : String) :
    ((getVerboseMessage steps message "" market).1 market = 1 + steps market) ∧
    ((getVerboseMessage steps message "" market).2 =
      ("Info " ++ (market ++ ": Step " ++ toString (1 + steps market) ++ ") " ++
        message)).trim) ∧
    ((getVerboseMessage steps message "Error" market).1 market = 1 + steps market) ∧
    ((getVerboseMessage steps message "Error" market).2 =
      (market ++ ": Step " ++ toString (1 + steps market) ++ ") " ++
        message).trimLeft) := by
  refine ⟨?_, ?_, ?_, ?_⟩ <;> simp [getVerboseMessage, jsOr]

/-- The value thrown by the setup phase of `run`: either a JS `Error` carrying
a message, or any non-Error value (such as a thrown string). -/
inductive Thrown where
  | errObj (message : String)
  | nonError (serialized : String)
deriving Repr, DecidableEq

/-- The top-level catch handler of main.ts lines 150-154: `setFailed` is
called (returning `some` failure line) only when the thrown value is an
`Error` instance; for anything else the handler records nothing. -/
def catchHandler : Thrown → Option String
  | .errObj m => some (tag "🔴 ERROR" ++ " " ++ m)
  | .nonError _ => none

/-- The action's exit status after the catch block: successful exactly when no
failure was recorded (`setFailed` never called). -/
def exitSuccess (t : Thrown) : Bool := (catchHandler t).isNone

/-- C10: when the setup phase throws a non-Error value, the catch handler
records no failure, so the action terminates with a successful status despite
the setup error. -/
theorem non_error_throw_succeeds (s : String) :
    catchHandler (Thrown.nonError s) = none ∧
    exitSuccess (Thrown.nonError s) = true := by
  exact ⟨rfl, rfl⟩

end Bpp
